import Mathlib

/-!
Verification development for the block-monitoring core of `moonbeam-tools`
(`src/utils/monitoring.ts`): identity resolution with time-bounded caches,
block-detail aggregation, range exploration, live head following and the
single-line snapshot formatter.

Conventions of the shallow embedding:
* JavaScript numbers holding timestamps and differences are `Int` (they are
  exact integers in every code path modelled here); `BigInt` values are `Nat`
  (all sums involved are non-negative).
* `Number(a / b)` on BigInt, followed by `/ 100`, is modelled exactly on `ℚ`
  (the quotients arising are far below 2^53, where the conversion is exact).
* Fallible chain queries are `Except JsError _`; the process-wide caches are
  threaded explicitly as a `CacheState` value.  A thrown JS exception leaves
  the caches as they were at the throw point, hence the state is returned
  together with the `Except` result.
* `chalk` color functions at color level 0 (the non-TTY default; terminal
  coloring is an external collaborator, out of the spec's scope) are the
  identity on strings, which is how they are modelled here.
-/

/-- Errors that a modelled chain query or JS runtime operation can raise:
an RPC rejection, a `TypeError` (e.g. arithmetic on `undefined`), or a
`RangeError` (BigInt division by zero). -/
inductive JsError where
  | rpcError (msg : String)
  | typeError
  | rangeError
deriving DecidableEq, Repr

instance {ε α : Type} [DecidableEq ε] [DecidableEq α] :
    DecidableEq (Except ε α) := fun x y =>
  match x, y with
  | .error a, .error b =>
    if h : a = b then isTrue (congrArg Except.error h)
    else isFalse (fun hh => h (Except.error.inj hh))
  | .ok a, .ok b =>
    if h : a = b then isTrue (congrArg Except.ok h)
    else isFalse (fun hh => h (Except.ok.inj hh))
  | .error _, .ok _ => isFalse (fun hh => Except.noConfusion hh)
  | .ok _, .error _ => isFalse (fun hh => Except.noConfusion hh)

/-- `true` exactly on the JavaScript-falsy string-or-nullish values:
`null`/`undefined` (here `none`) and the empty string. -/
def jsFalsyS : Option String → Bool
  | none => true
  | some s => decide (s = "")

/-- JavaScript `a || b` on string-or-nullish values: `a` unless it is falsy. -/
def jsOrStr (a b : Option String) : Option String :=
  match a with
  | some s => if s = "" then b else some s
  | none => b

/-- `pat.isPrefix of s` on character lists (used to search for substrings). -/
def startsWithL : List Char → List Char → Bool
  | [], _ => true
  | _ :: _, [] => false
  | a :: ps, b :: cs => a == b && startsWithL ps cs

/-- Does `pat` occur as a contiguous run inside the character list? -/
def containsL (pat : List Char) : List Char → Bool
  | [] => startsWithL pat []
  | c :: rest => startsWithL pat (c :: rest) || containsL pat rest

/-- JavaScript `s.includes(pat)` / substring containment test. -/
def strContains (s pat : String) : Bool :=
  containsL pat.data s.data

/-- JavaScript `s.padStart(len, c)`. -/
def padStart (s : String) (len : Nat) (c : Char) : String :=
  String.mk (List.replicate (len - s.length) c) ++ s

/-- JavaScript `s.padEnd(len, c)`. -/
def padEnd (s : String) (len : Nat) (c : Char) : String :=
  s ++ String.mk (List.replicate (len - s.length) c)

/-- JavaScript `s.substring(0, n)`. -/
def strTake (s : String) (n : Nat) : String :=
  String.mk (s.data.take n)

/-- JavaScript `s.substring(s.length - n)`: the last `n` characters. -/
def strLast (s : String) (n : Nat) : String :=
  String.mk (s.data.drop (s.data.length - n))

/-- `n` rendered in decimal, left-padded with zeros to `d` digits. -/
def zeroPad (n d : Nat) : String :=
  padStart (toString n) d '0'

/-- JavaScript `x.toFixed(d)` on an exact rational `x`: round `x·10^d`
half-up (`⌊x·10^d + 1/2⌋`, computed directly on numerator and denominator)
and render with exactly `d` fractional digits.  (At the call sites modelled
here `x` is an integer divided by `10^d`, where the binary double round-trips
exactly, so this agrees with the JS float behaviour.) -/
def toFixedQ (q : ℚ) (d : Nat) : String :=
  let scaled : Int :=
    Int.fdiv (q.num * (10 ^ d) * 2 + (q.den : Int)) ((q.den : Int) * 2)
  let a := scaled.natAbs
  (if scaled < 0 then "-" else "") ++ toString (a / 10 ^ d) ++
    (if d = 0 then "" else "." ++ zeroPad (a % 10 ^ d) d)

/-- `chalk.red` at color level 0 (non-TTY): identity on the string. -/
def chalkRed (s : String) : String := s

/-- `chalk.yellow` at color level 0 (non-TTY): identity on the string. -/
def chalkYellow (s : String) : String := s

/-- `chalk.green` at color level 0 (non-TTY): identity on the string. -/
def chalkGreen (s : String) : String := s

/-- Dispatch outcome of one extrinsic (`tx.dispatchInfo`): consumed weight,
whether the extrinsic pays fees (`paysFee.isYes`) and whether its dispatch
class is `Mandatory` (`class.isMandatory`). -/
structure DispatchInfo where
  weight : Nat
  paysFee : Bool
  isMandatory : Bool
deriving DecidableEq, Repr

/-- Payload of an `ethereum.transact` extrinsic (`method.args[0]`).  The
legacy / EIP-2930 / EIP-1559 alternatives all expose a gas price and a
transferred value; the `||`-chain in the source selects whichever variant is
present, modelled as one record. -/
structure EthPayload where
  gasPrice : Nat
  value : Nat
deriving DecidableEq, Repr

/-- An extrinsic as the monitoring code observes it: pallet and method name,
optional first call argument (`args[0]?.toString()`), optional ethereum
transaction payload, hex encoding (`toHex()`) and hash string. -/
structure Extrinsic where
  sectionName : String
  methodName : String
  firstArg : Option String
  payload : Option EthPayload
  hex : String
  hash : String
deriving DecidableEq, Repr

/-- An event record: the extrinsic index it is attached to (`none` for
block-level events), pallet/method names, decoded numeric data fields
(`balances.Transfer` carries the amount at `data[2]`), and — for
`system.ExtrinsicSuccess` / `system.ExtrinsicFailed` — the embedded dispatch
outcome. -/
structure EventRecord where
  extrinsicIndex : Option Nat
  sectionName : String
  methodName : String
  amounts : List Nat
  dispatchInfo : Option DispatchInfo
deriving DecidableEq, Repr

/-- Fee quote for one extrinsic (`api.rpc.payment.queryInfo`); only the
partial-fee amount is consumed by the monitoring code. -/
structure FeeInfo where
  feeAmount : Nat
deriving DecidableEq, Repr

/-- A registered on-chain identity; the raw display bytes are modelled by the
string they decode to (`u8aToString(info.display.asRaw.toU8a(true))`). -/
structure Identity where
  displayName : String
deriving DecidableEq, Repr

/-- A pre-runtime digest log of the block header; `engineData` models
`asPreRuntime` as `[engine id, payload]` strings. -/
structure DigestLog where
  isPreRuntime : Bool
  engineData : List String
deriving DecidableEq, Repr

/-- The block as returned by `api.rpc.chain.getBlock`. -/
structure BlockData where
  number : Nat
  hash : String
  parentHash : String
  digestLogs : List DigestLog
  extrinsics : List Extrinsic
deriving DecidableEq, Repr

/-- One correlated per-extrinsic record of the snapshot (`TxWithEventAndFee`):
the extrinsic, its emitted events, its dispatch outcome and its fee quote. -/
structure TxWithEventAndFee where
  extrinsic : Extrinsic
  events : List EventRecord
  dispatchInfo : DispatchInfo
  fee : FeeInfo
deriving DecidableEq, Repr

/-- The immutable per-block snapshot (`BlockDetails`).  The source uses a
separate `RealtimeBlockDetails` extension carrying the pending transaction
pool; the formatter distinguishes the two with a `"pendingTxs" in _` check,
modelled by the optional `pendingTxs` field (`none` on plain snapshots). -/
structure BlockDetails where
  block : BlockData
  authorName : String
  blockTime : Int
  records : List EventRecord
  txWithEvents : List TxWithEventAndFee
  weightPercentage : ℚ
  pendingTxs : Option (List Extrinsic)
deriving DecidableEq, Repr

/-- Author-mapping cache entry: the mapped (already ethereum-encoded) account,
`none` when the on-chain mapping was empty, plus the write timestamp. -/
structure AuthorMappingEntry where
  account : Option String
  lastUpdate : Nat
deriving DecidableEq, Repr

/-- Identity cache entry: the registration (if any) and the write timestamp. -/
structure IdentityCacheEntry where
  identity : Option Identity
  lastUpdate : Nat
deriving DecidableEq, Repr

/-- Look up a key in an association-list cache (JS object property read). -/
def lookupEntry {α : Type} (m : List (String × α)) (k : String) : Option α :=
  (m.find? (fun p => p.1 == k)).map (fun p => p.2)

/-- Overwrite-or-add a key in an association-list cache (JS property write). -/
def insertEntry {α : Type} (m : List (String × α)) (k : String) (v : α) :
    List (String × α) :=
  (k, v) :: m.filter (fun p => !(p.1 == k))

/-- The two process-wide caches of `monitoring.ts`. -/
structure CacheState where
  authorMappingCache : List (String × AuthorMappingEntry)
  identityCache : List (String × IdentityCacheEntry)
deriving DecidableEq, Repr

/-- The empty initial cache state. -/
def st0 : CacheState := ⟨[], []⟩

/-- The abstract chain-access collaborator for one aggregation call: the
constant maximum block weight, the per-block fetches, the per-extrinsic fee
quote, the author-mapping query (already ethereum-encoded account or `none`
when the mapping is empty), the single identity query, and the batched
identity query.  (The storage-key hashing of `getIdentityKey` is external
crypto; the batched oracle is keyed directly by the account list.) -/
structure ChainEnv where
  maxBlockWeight : Nat
  getBlock : Except JsError BlockData
  events : Except JsError (List EventRecord)
  timestampNow : Except JsError Nat
  queryInfo : String → Except JsError FeeInfo
  mappingWithDeposit : String → Except JsError (Option String)
  identityOf : String → Except JsError (Option Identity)
  queryStorageAt : List String → Except JsError (List (Option Identity))

/-- Result of a cache-touching operation: the value or thrown error, the cache
state after the call (JS caches persist past a throw), and how many storage
queries the call issued. -/
structure Res (α : Type) where
  val : Except JsError α
  state : CacheState
  queries : Nat

/-- `getAccountIdentity` (monitoring.ts lines 89–103): falsy accounts yield
`""` at once; otherwise a missing or stale (older than one hour) cache entry
triggers one `identity.identityOf` query and a cache write, and the display
name (or the raw account string when no identity is registered) is read from
the cache. -/
def getAccountIdentity (env : ChainEnv) (now : Nat) (account : Option String)
    (st : CacheState) : Res String :=
  match account with
  | none => ⟨.ok "", st, 0⟩
  | some a =>
    if a = "" then ⟨.ok "", st, 0⟩
    else
      let stale : Bool :=
        match lookupEntry st.identityCache a with
        | none => true
        | some e => decide (e.lastUpdate < now - 3600 * 1000)
      match (if stale then
              (match env.identityOf a with
               | .error e => .error e
               | .ok d =>
                 .ok ({ st with identityCache :=
                         insertEntry st.identityCache a ⟨d, now⟩ }, 1))
             else .ok (st, 0) : Except JsError (CacheState × Nat)) with
      | .error e => ⟨.error e, st, 1⟩
      | .ok (st', q) =>
        ⟨.ok (match (lookupEntry st'.identityCache a).bind
                (fun e => e.identity) with
              | some i => i.displayName
              | none => a), st', q⟩

/-- `getAuthorIdentity` (monitoring.ts lines 105–119): a missing or stale
author-mapping cache entry triggers one `authorMapping.mappingWithDeposit`
query whose result — the mapped account or `null` when the mapping is empty —
is written to the cache *before* the account's identity is resolved; the
cached account is then passed to `getAccountIdentity`. -/
def getAuthorIdentity (env : ChainEnv) (now : Nat) (author : String)
    (st : CacheState) : Res String :=
  let stale : Bool :=
    match lookupEntry st.authorMappingCache author with
    | none => true
    | some e => decide (e.lastUpdate < now - 3600 * 1000)
  match (if stale then
          (match env.mappingWithDeposit author with
           | .error e => .error e
           | .ok acc =>
             .ok { st with authorMappingCache :=
                     insertEntry st.authorMappingCache author ⟨acc, now⟩ })
         else .ok st : Except JsError CacheState) with
  | .error e => ⟨.error e, st, 1⟩
  | .ok st' =>
    let account := ((lookupEntry st'.authorMappingCache author).map
      (fun e => e.account)).join
    let r := getAccountIdentity env now account st'
    ⟨r.val, r.state, (if stale then 1 else 0) + r.queries⟩

/-- Write the batched identity results into the cache, pairing the queried
accounts with the returned records by position (`identities.forEach`). -/
def applyBatch (st : CacheState) (now : Nat) :
    List String → List (Option Identity) → CacheState
  | a :: moreAccs, d :: moreIds =>
    applyBatch { st with identityCache := insertEntry st.identityCache a ⟨d, now⟩ }
      now moreAccs moreIds
  | _, _ => st

/-- `getAccountIdentities` (monitoring.ts lines 52–87): `null` or empty input
returns `[]` with no query; otherwise the stale/missing accounts are fetched
with one batched storage query, written to the cache, and every input account
is mapped through the cache (falsy accounts map to themselves; a truthy
account whose cache entry is missing raises the JS `TypeError` of reading
`.identity` of `undefined`). -/
def getAccountIdentities (env : ChainEnv) (now : Nat)
    (accounts : Option (List String)) (st : CacheState) : Res (List String) :=
  match accounts with
  | none => ⟨.ok [], st, 0⟩
  | some accs =>
    if accs.length = 0 then ⟨.ok [], st, 0⟩
    else
      let missingAccounts := accs.filter (fun a =>
        !(a == "") && (match lookupEntry st.identityCache a with
                       | none => true
                       | some e => decide (e.lastUpdate < now - 3600 * 1000)))
      let q := if 0 < missingAccounts.length then 1 else 0
      match (if 0 < missingAccounts.length then
              (match env.queryStorageAt missingAccounts with
               | .error e => .error e
               | .ok identities => .ok (applyBatch st now missingAccounts identities))
             else .ok st : Except JsError CacheState) with
      | .error e => ⟨.error e, st, q⟩
      | .ok st' =>
        match accs.mapM (fun a =>
          if a == "" then Except.ok a
          else match lookupEntry st'.identityCache a with
            | none => Except.error JsError.typeError
            | some e => Except.ok (match e.identity with
                | some i => i.displayName
                | none => a)) with
        | .error e => ⟨.error e, st', q⟩
        | .ok names => ⟨.ok names, st', q⟩

/-- The fallback author display used by `getBlockDetails` when no author
identifier can be extracted from the block at all. -/
def zeroAddr : String :=
  "0x0000000000000000000000000000000000000000000000000000000000000000"

/-- Author-identifier extraction of `getBlockDetails` (lines 131–139): the
account argument of an `authorInherent.setAuthor` extrinsic, or — via the
falsy-alternative `||` — the payload of an `"nmbs"`-tagged pre-runtime digest
log. -/
def extractAuthorId (b : BlockData) : Option String :=
  jsOrStr
    ((b.extrinsics.find? (fun tx =>
        tx.sectionName == "authorInherent" && tx.methodName == "setAuthor")).bind
      (fun tx => tx.firstArg))
    ((b.digestLogs.find? (fun l =>
        l.isPreRuntime && decide (0 < l.engineData.length) &&
          (l.engineData.getD 0 "" == "nmbs"))).bind
      (fun l => l.engineData.get? 1))

/-- The fee quotes of all extrinsics
(`Promise.all(block.extrinsics.map(ext => api.rpc.payment.queryInfo(...)))`):
any single rejection rejects the whole batch. -/
def queryFees (env : ChainEnv) : List Extrinsic → Except JsError (List FeeInfo)
  | [] => .ok []
  | ext :: rest =>
    match env.queryInfo ext.hex, queryFees env rest with
    | .error e, _ => .error e
    | _, .error e => .error e
    | .ok f, .ok fs => .ok (f :: fs)

/-- The dispatch outcome carried by an extrinsic's `system.ExtrinsicSuccess` /
`system.ExtrinsicFailed` event, when present. -/
def findDispatch (evs : List EventRecord) : Option DispatchInfo :=
  (evs.find? (fun ev => ev.sectionName == "system" &&
      (ev.methodName == "ExtrinsicSuccess" || ev.methodName == "ExtrinsicFailed"))).bind
    (fun ev => ev.dispatchInfo)

/-- Modelled from the spec: `mapExtrinsics` is imported from `./types`, which
is not under `src/`.  Per the spec's data model and aggregation step 4, it
correlates each extrinsic with its emitted events (events carry an embedded
extrinsic index) and its fee quote by position, producing one
(extrinsic, events, dispatch outcome, fee) tuple per extrinsic.  `none` models
the runs in which some tuple has no dispatch outcome (or no fee quote), where
the aggregator's subsequent weight fold throws on `undefined`. -/
def mapExtrinsicsAux (records : List EventRecord) :
    Nat → List Extrinsic → List FeeInfo → Option (List TxWithEventAndFee)
  | _, [], _ => some []
  | _, _ :: _, [] => none
  | i, ext :: exts, f :: fs =>
    let evs := records.filter (fun ev => ev.extrinsicIndex == some i)
    match findDispatch evs, mapExtrinsicsAux records (i + 1) exts fs with
    | some di, some rest =>
      some ({ extrinsic := ext, events := evs, dispatchInfo := di, fee := f } :: rest)
    | _, _ => none

/-- Modelled from the spec: entry point of the positional correlation, see
`mapExtrinsicsAux`. -/
def mapExtrinsics (exts : List Extrinsic) (records : List EventRecord)
    (fees : List FeeInfo) : Option (List TxWithEventAndFee) :=
  mapExtrinsicsAux records 0 exts fees

/-- `getBlockDetails` (monitoring.ts lines 121–162).  The three block-level
fetches run first (`Promise.all`; any rejection rejects the call), then the
author identifier is extracted, then the fee quotes and the author identity
resolve concurrently — both run to completion, so the identity resolver's
cache writes persist even when the fee batch rejects, and vice versa.  On
success the snapshot carries the correlated per-extrinsic records and
`weightPercentage = Number(summedWeight * 10000n / maxBlockWeight) / 100`. -/
def getBlockDetails (env : ChainEnv) (now : Nat) (st : CacheState) :
    Except JsError BlockDetails × CacheState :=
  match env.getBlock, env.events, env.timestampNow with
  | .error e, _, _ => (.error e, st)
  | _, .error e, _ => (.error e, st)
  | _, _, .error e => (.error e, st)
  | .ok b, .ok records, .ok ts =>
    let authorId := extractAuthorId b
    let feesRes := queryFees env b.extrinsics
    let authorRes : Res String :=
      match authorId with
      | some a => if a = "" then ⟨.ok zeroAddr, st, 0⟩ else getAuthorIdentity env now a st
      | none => ⟨.ok zeroAddr, st, 0⟩
    match feesRes, authorRes.val with
    | .error e, _ => (.error e, authorRes.state)
    | _, .error e => (.error e, authorRes.state)
    | .ok fees, .ok authorName =>
      match mapExtrinsics b.extrinsics records fees with
      | none => (.error .typeError, authorRes.state)
      | some txs =>
        if env.maxBlockWeight = 0 then (.error .rangeError, authorRes.state)
        else
          let blockWeight := (txs.map (fun t => t.dispatchInfo.weight)).sum
          (.ok { block := b
                 authorName := authorName
                 blockTime := (ts : Int)
                 records := records
                 txWithEvents := txs
                 weightPercentage :=
                   mkRat ((blockWeight * 10000) / env.maxBlockWeight : Nat) 100
                 pendingTxs := none },
           authorRes.state)

/-- The weight-percentage formula in the spec's own words (aggregation step
5): "weight-percentage = (summed weight × 10000 / max block weight) / 100",
the inner division being integer division. -/
def specWeightPercentage (weights : List Nat) (maxBlockWeight : Nat) : ℚ :=
  mkRat ((weights.sum * 10000) / maxBlockWeight : Nat) 100

/-- `exploreBlockRange` (monitoring.ts lines 172–190), projected onto the
order in which the callback observes block numbers: the while-loop launches
batches of at most `concurrency` consecutive block aggregations
(`current++` per launched task) and, after each batch resolves, awaits the
callback on its results in launch order before the next batch starts. -/
def exploreBlockRange (concurrency fromBlock toBlock : Nat) : List Nat :=
  if h : fromBlock ≤ toBlock ∧ 1 ≤ concurrency then
    List.range' fromBlock (min concurrency (toBlock + 1 - fromBlock)) ++
      exploreBlockRange concurrency
        (fromBlock + min concurrency (toBlock + 1 - fromBlock)) toBlock
  else []
termination_by toBlock + 1 - fromBlock
decreasing_by
  rcases h with ⟨h1, h2⟩
  have h3 : 1 ≤ min concurrency (toBlock + 1 - fromBlock) := by omega
  omega

/-- `listenBlocks` (monitoring.ts lines 197–225), projected onto the elapsed
times the subscription handler delivers when the heads are processed one at a
time: each head's callback receives
`elapsedMilliSecs = blockDetails.blockTime - latestBlockTime`, after which
`latestBlockTime` is set to this head's block time.  The input list holds the
successive heads' on-chain block times; the result is the list of delivered
elapsed times together with the final stored `latestBlockTime`. -/
def listenBlocksRun (latestBlockTime : Int) : List Int → List Int × Int
  | [] => ([], latestBlockTime)
  | t :: ts =>
    let rest := listenBlocksRun t ts
    ((t - latestBlockTime) :: rest.1, rest.2)

/-- The optional prefix/suffix strings of the formatter's `options`
argument (fields named `prefix`/`suffix` in the source). -/
structure LogOptions where
  pre : Option String
  suf : Option String
deriving DecidableEq, Repr

/-- `generateBlockDetailsLog` (monitoring.ts lines 241–392).  `timeStr` is
the reading of the wall clock that the source takes itself via
`new Date().toLocaleTimeString("fr-FR", ...)` — an input of the computation
in this embedding.  Everything else mirrors the source line by line, with the
`chalk` color functions at color level 0 (identity). -/
def generateBlockDetailsLog (timeStr : String) (blockDetails : BlockDetails)
    (options : Option LogOptions) (previousBlockDetails : Option BlockDetails) :
    String :=
  let secondText : Option String :=
    match previousBlockDetails with
    | none => none
    | some prev =>
      let elapsedMilliSecs : Int := blockDetails.blockTime - prev.blockTime
      let seconds :=
        padStart (toFixedQ (mkRat (Int.fdiv elapsedMilliSecs 100) 10) 1) 5 ' '
      some (if 30000 < elapsedMilliSecs then chalkRed seconds
            else if 14000 < elapsedMilliSecs then chalkYellow seconds
            else seconds)
  let weight := padStart (toFixedQ blockDetails.weightPercentage 2) 5 ' '
  let weightText :=
    if 60 < blockDetails.weightPercentage then chalkRed weight
    else if 30 < blockDetails.weightPercentage then chalkYellow weight
    else if 10 < blockDetails.weightPercentage then chalkGreen weight
    else weight
  let txPoolText : Option String :=
    match blockDetails.pendingTxs with
    | none => none
    | some pend =>
      let txPool := padStart (toString pend.length) 4 ' '
      some (if 1000 < pend.length then chalkRed txPool
            else if 100 < pend.length then chalkYellow txPool
            else txPool)
  let poolIncText : Option String :=
    match blockDetails.pendingTxs, previousBlockDetails with
    | some pend, some prev =>
      (match prev.pendingTxs with
       | some prevPend =>
         let newPendingHashes := prevPend.map (fun tx => tx.hash)
         let txPoolDiff := ((pend.map (fun tx => tx.hash)).filter
           (fun x => !(newPendingHashes.contains x))).length
         let poolInc := padStart (toString txPoolDiff) 3 ' '
         some (if 80 < txPoolDiff then chalkRed poolInc
               else if 30 < txPoolDiff then chalkYellow poolInc
               else poolInc)
       | none => none)
    | _, _ => none
  let extCount := blockDetails.block.extrinsics.length
  let ext := padStart (toString extCount) 3 ' '
  let extText :=
    if 100 ≤ extCount then chalkRed ext
    else if 50 ≤ extCount then chalkYellow ext
    else if 15 < extCount then chalkGreen ext
    else ext
  let ethTxs := (blockDetails.block.extrinsics.filter (fun tx =>
    tx.sectionName == "ethereum" && tx.methodName == "transact")).length
  let eths := padStart (toString ethTxs) 3 ' '
  let evmText :=
    if 97 ≤ ethTxs then chalkRed eths
    else if 47 ≤ ethTxs then chalkYellow eths
    else if 12 < ethTxs then chalkGreen eths
    else eths
  let fees : Nat :=
    (blockDetails.txWithEvents.filter (fun t =>
        t.dispatchInfo.paysFee && !t.dispatchInfo.isMandatory)).foldl
      (fun p t =>
        if t.extrinsic.sectionName == "ethereum" then
          let payload := t.extrinsic.payload.getD { gasPrice := 0, value := 0 }
          p + payload.gasPrice * t.dispatchInfo.weight / 25000
        else p + t.fee.feeAmount) 0
  let feesTokens : ℚ := mkRat (fees / 10 ^ 15 : Nat) 1000
  let feesTokenTxt := padStart (toFixedQ feesTokens 3) 5 ' '
  let feesText :=
    if mkRat 1 10 ≤ feesTokens then chalkRed feesTokenTxt
    else if mkRat 1 100 ≤ feesTokens then chalkYellow feesTokenTxt
    else if mkRat 1 1000 ≤ feesTokens then chalkGreen feesTokenTxt
    else feesTokenTxt
  let transferred : Nat :=
    ((blockDetails.txWithEvents.map (fun t =>
        if t.extrinsic.sectionName == "ethereum" &&
            t.extrinsic.methodName == "transact" then
          (t.extrinsic.payload.getD { gasPrice := 0, value := 0 }).value
        else
          t.events.foldl (fun total ev =>
            if ev.sectionName == "balances" && ev.methodName == "Transfer" then
              total + ev.amounts.getD 2 0
            else total) 0))).foldl (fun p v => p + v) 0
  let transferredTokens : Nat := transferred / 10 ^ 18
  let transferredText := padStart (toString transferredTokens) 5 ' '
  let coloredTransferred :=
    if 100 ≤ transferredTokens then chalkRed transferredText
    else if 50 ≤ transferredTokens then chalkYellow transferredText
    else if 15 < transferredTokens then chalkGreen transferredText
    else transferredText
  let authorId :=
    if 20 < blockDetails.authorName.length then
      strTake blockDetails.authorName 7 ++ ".." ++ strLast blockDetails.authorName 4
    else blockDetails.authorName
  let hash := blockDetails.block.hash
  let prePart :=
    match options with
    | some o => (match o.pre with
        | some p => if p == "" then "" else p ++ " "
        | none => "")
    | none => ""
  let sufPart :=
    match options with
    | some o => (match o.suf with
        | some sfx => if sfx == "" then "" else " " ++ sfx
        | none => "")
    | none => ""
  let poolPart :=
    match txPoolText with
    | some tp =>
      "[Pool:" ++ tp ++
        (match poolIncText with
         | some pi => "(+" ++ pi ++ ")"
         | none => "") ++ "]"
    | none => ""
  let secondPart :=
    match secondText with
    | some sc => "[" ++ sc ++ "s]"
    | none => ""
  timeStr ++ " " ++ prePart ++ "#" ++
    padEnd (toString blockDetails.block.number) 7 ' ' ++ " [" ++ weightText ++
    "%, " ++ feesText ++ " fees, " ++ extText ++ " Txs (" ++ evmText ++
    " Eth)(<->" ++ coloredTransferred ++ ")]" ++ poolPart ++ secondPart ++
    "(hash: " ++ strTake hash 7 ++ ".." ++ strLast hash 4 ++ ")" ++ sufPart ++
    " by " ++ authorId

/-- Observable events of one `listenBlocks` subscription: for head `n`,
its aggregation starting (the handler body runs up to its first `await` as
soon as the notification arrives), its aggregation completing, its callback
being invoked, and that callback's promise resolving. -/
inductive HeadEvent where
  | aggStart (n : Nat)
  | aggDone (n : Nat)
  | cbInvoke (n : Nat)
  | cbReturn (n : Nat)
deriving DecidableEq, Repr

/-- Execution state of a `listenBlocks` subscription: how many heads the
transport has delivered, which heads' aggregations are still awaiting,
which callbacks are in flight, and the event log (newest first). -/
structure FollowState where
  delivered : Nat
  aggPending : List Nat
  cbPending : List Nat
  trace : List HeadEvent
deriving DecidableEq, Repr

/-- One scheduling step of `listenBlocks` (lines 212–224).  The transport
invokes the async handler per notification without awaiting its promise, so
`deliver` is enabled at any time and immediately starts the head's
aggregation; when a head's `Promise.all` resolves, the handler calls
`callBack(...)` without `await` and finishes; the callback's own promise
resolves in a separate step. -/
inductive Step : FollowState → FollowState → Prop
  | deliver (s : FollowState) :
      Step s ⟨s.delivered + 1, (s.delivered + 1) :: s.aggPending, s.cbPending,
        HeadEvent.aggStart (s.delivered + 1) :: s.trace⟩
  | aggComplete (s : FollowState) (n : Nat) (h : n ∈ s.aggPending) :
      Step s ⟨s.delivered, s.aggPending.erase n, n :: s.cbPending,
        HeadEvent.cbInvoke n :: HeadEvent.aggDone n :: s.trace⟩
  | cbComplete (s : FollowState) (n : Nat) (h : n ∈ s.cbPending) :
      Step s ⟨s.delivered, s.aggPending, s.cbPending.erase n,
        HeadEvent.cbReturn n :: s.trace⟩

/-- States a `listenBlocks` subscription can actually be in, starting from
the freshly subscribed state. -/
inductive FollowReachable : FollowState → Prop
  | init : FollowReachable ⟨0, [], [], []⟩
  | step {s s' : FollowState} : FollowReachable s → Step s s' → FollowReachable s'

/-- Membership test on an event log. -/
def memEv (e : HeadEvent) : List HeadEvent → Bool
  | [] => false
  | x :: tr => x == e || memEv e tr

/-- On a newest-first log: every occurrence of `aggStart (n+1)` is
chronologically preceded by a `cbReturn n` — the serialization property the
spec asserts for head processing. -/
def serializedAfter (n : Nat) : List HeadEvent → Bool
  | [] => true
  | e :: tr =>
    (if e == HeadEvent.aggStart (n + 1) then memEv (HeadEvent.cbReturn n) tr
     else true) && serializedAfter n tr

/-- On a newest-first log: every occurrence of `cbInvoke n` is
chronologically preceded by `aggDone n` — the callback for a head fires only
after that head's own aggregation completed. -/
def cbAfterAgg (n : Nat) : List HeadEvent → Bool
  | [] => true
  | e :: tr =>
    (if e == HeadEvent.cbInvoke n then memEv (HeadEvent.aggDone n) tr
     else true) && cbAfterAgg n tr

/-- The state after the transport delivers heads 1 and 2 back-to-back while
neither aggregation has resolved yet — reachable because nothing in
`listenBlocks` defers the second notification. -/
def twoHeadsState : FollowState :=
  ⟨2, [2, 1], [], [HeadEvent.aggStart 2, HeadEvent.aggStart 1]⟩

/-- Hash string of the `i`-th synthetic pending transaction. -/
def mkHash (i : Nat) : String := "h" ++ toString i

/-- A synthetic pending-pool extrinsic with the given hash index. -/
def poolTx (i : Nat) : Extrinsic :=
  { sectionName := "x", methodName := "x", firstArg := none, payload := none,
    hex := "", hash := mkHash i }

/-- Synthetic pending pool of 50 transactions. -/
def samplePool50 : List Extrinsic := (List.range 50).map poolTx

/-- Synthetic pending pool holding the first 40 of the same transactions. -/
def samplePool40 : List Extrinsic := (List.range 40).map poolTx

/-- Synthetic `ethereum.transact` extrinsic transferring 20 tokens. -/
def ethTxSample : Extrinsic :=
  { sectionName := "ethereum", methodName := "transact", firstArg := none,
    payload := some { gasPrice := 1, value := 20 * 10 ^ 18 },
    hex := "0xe1", hash := "he1" }

/-- Synthetic `balances.transfer` extrinsic. -/
def transferTxSample : Extrinsic :=
  { sectionName := "balances", methodName := "transfer", firstArg := none,
    payload := none, hex := "0xe2", hash := "he2" }

/-- Synthetic `timestamp.set` inherent. -/
def timestampTxSample : Extrinsic :=
  { sectionName := "timestamp", methodName := "set", firstArg := none,
    payload := none, hex := "0xe3", hash := "he3" }

/-- The fixed synthetic snapshot of the spec's formatter round-trip: weight
45.00%, 3 extrinsics of which 1 is an ethereum transaction, fee total 0.005
tokens (one paying extrinsic with a 0.005-token partial fee), 20 tokens
transferred (the ethereum transaction's value), author `"abc...wxyz"`, and a
pending pool of 50 transactions. -/
def sampleBd : BlockDetails :=
  { block := { number := 42, hash := "0xabcdef012345", parentHash := "0xparent",
               digestLogs := [], extrinsics := [ethTxSample, transferTxSample,
                                                timestampTxSample] }
    authorName := "abc...wxyz"
    blockTime := 10000
    records := []
    txWithEvents :=
      [ { extrinsic := ethTxSample, events := [],
          dispatchInfo := { weight := 100, paysFee := false, isMandatory := false },
          fee := { feeAmount := 0 } },
        { extrinsic := transferTxSample, events := [],
          dispatchInfo := { weight := 200, paysFee := true, isMandatory := false },
          fee := { feeAmount := 5 * 10 ^ 15 } },
        { extrinsic := timestampTxSample, events := [],
          dispatchInfo := { weight := 1, paysFee := true, isMandatory := true },
          fee := { feeAmount := 0 } } ]
    weightPercentage := 45
    pendingTxs := some samplePool50 }

/-- The previous snapshot of the round-trip: pool of 40 (all still pending in
the current pool) and a block timestamp 3000 ms earlier. -/
def samplePrevBd : BlockDetails :=
  { sampleBd with blockTime := 7000, pendingTxs := some samplePool40 }

/-- The round-trip line rendered from the synthetic snapshots. -/
def sampleLog : String :=
  generateBlockDetailsLog "13:37:42" sampleBd none (some samplePrevBd)

/-- A chain environment on which aggregation fully succeeds: a two-extrinsic
block without author information, per-extrinsic success events carrying
weights 300 and 200, and max block weight 10000. -/
def envOk : ChainEnv :=
  { maxBlockWeight := 10000
    getBlock := .ok { number := 42, hash := "0xhash", parentHash := "0xparent",
                      digestLogs := [],
                      extrinsics := [transferTxSample, timestampTxSample] }
    events := .ok
      [ { extrinsicIndex := some 0, sectionName := "system",
          methodName := "ExtrinsicSuccess", amounts := [],
          dispatchInfo := some { weight := 300, paysFee := true, isMandatory := false } },
        { extrinsicIndex := some 1, sectionName := "system",
          methodName := "ExtrinsicSuccess", amounts := [],
          dispatchInfo := some { weight := 200, paysFee := false, isMandatory := true } } ]
    timestampNow := .ok 999
    queryInfo := fun _ => .ok { feeAmount := 7 }
    mappingWithDeposit := fun _ => .error (.rpcError "unreached")
    identityOf := fun _ => .error (.rpcError "unreached")
    queryStorageAt := fun _ => .error (.rpcError "unreached") }

/-- The snapshot `getBlockDetails` produces on `envOk`. -/
def bdOk : BlockDetails :=
  { block := { number := 42, hash := "0xhash", parentHash := "0xparent",
               digestLogs := [],
               extrinsics := [transferTxSample, timestampTxSample] }
    authorName := zeroAddr
    blockTime := 999
    records :=
      [ { extrinsicIndex := some 0, sectionName := "system",
          methodName := "ExtrinsicSuccess", amounts := [],
          dispatchInfo := some { weight := 300, paysFee := true, isMandatory := false } },
        { extrinsicIndex := some 1, sectionName := "system",
          methodName := "ExtrinsicSuccess", amounts := [],
          dispatchInfo := some { weight := 200, paysFee := false, isMandatory := true } } ]
    txWithEvents :=
      [ { extrinsic := transferTxSample,
          events := [ { extrinsicIndex := some 0, sectionName := "system",
                        methodName := "ExtrinsicSuccess", amounts := [],
                        dispatchInfo := some { weight := 300, paysFee := true,
                                               isMandatory := false } } ],
          dispatchInfo := { weight := 300, paysFee := true, isMandatory := false },
          fee := { feeAmount := 7 } },
        { extrinsic := timestampTxSample,
          events := [ { extrinsicIndex := some 1, sectionName := "system",
                        methodName := "ExtrinsicSuccess", amounts := [],
                        dispatchInfo := some { weight := 200, paysFee := false,
                                               isMandatory := true } } ],
          dispatchInfo := { weight := 200, paysFee := false, isMandatory := true },
          fee := { feeAmount := 7 } } ]
    weightPercentage := 5
    pendingTxs := none }

/-- A chain environment whose per-extrinsic identity query is down while all
other fetches succeed, and whose block names an author with an on-chain
author mapping. -/
def envIdentityDown : ChainEnv :=
  { maxBlockWeight := 10000
    getBlock := .ok { number := 7, hash := "0xhash7", parentHash := "0xparent7",
                      digestLogs := [],
                      extrinsics := [ { sectionName := "authorInherent",
                                        methodName := "setAuthor",
                                        firstArg := some "0xauthor",
                                        payload := none, hex := "0xsa",
                                        hash := "hsa" } ] }
    events := .ok [ { extrinsicIndex := some 0, sectionName := "system",
                      methodName := "ExtrinsicSuccess", amounts := [],
                      dispatchInfo := some { weight := 12, paysFee := false,
                                             isMandatory := true } } ]
    timestampNow := .ok 4242
    queryInfo := fun _ => .ok { feeAmount := 3 }
    mappingWithDeposit := fun _ => .ok (some "0xaccount")
    identityOf := fun _ => .error (.rpcError "identity pallet down")
    queryStorageAt := fun _ => .error (.rpcError "identity pallet down") }

/-- A chain environment whose author-mapping pallet reports no mapping for
any author key. -/
def envNoMapping : ChainEnv :=
  { envIdentityDown with
    mappingWithDeposit := fun _ => .ok none
    identityOf := fun _ => .ok none }

/-- Identity-cache state holding one entry for account `"q"` written at
time 0, used to exercise the freshness window. -/
def stW : CacheState := ⟨[], [("q", ⟨none, 0⟩)]⟩

/-! ## Supporting lemmas -/

theorem mapExtrinsicsAux_length (records : List EventRecord) :
    ∀ i exts fees txs, mapExtrinsicsAux records i exts fees = some txs →
      txs.length = exts.length := by
  intro i exts
  induction exts generalizing i with
  | nil =>
    intro fees txs h
    simp only [mapExtrinsicsAux] at h
    cases h
    rfl
  | cons x rest ih =>
    intro fees txs h
    cases fees with
    | nil => simp [mapExtrinsicsAux] at h
    | cons f fs =>
      simp only [mapExtrinsicsAux] at h
      split at h
      · cases h
        rename_i hrec
        simp only [List.length_cons]
        exact congrArg (fun m => m + 1) (ih (i + 1) fs _ hrec)
      · cases h

theorem queryFees_ok (env : ChainEnv) :
    ∀ l fs, queryFees env l = .ok fs →
      ∀ ext ∈ l, ∃ f, env.queryInfo ext.hex = .ok f := by
  intro l
  induction l with
  | nil => intro fs h ext hm; cases hm
  | cons x rest ih =>
    intro fs h ext hm
    simp only [queryFees] at h
    split at h
    · cases h
    · cases h
    · rename_i f fs2 hq hr
      cases hm with
      | head => exact ⟨f, hq⟩
      | tail _ hm2 => exact ih fs2 hr ext hm2

theorem lookupEntry_insertEntry {α : Type} (m : List (String × α)) (k : String)
    (v : α) : lookupEntry (insertEntry m k v) k = some v := by
  simp [lookupEntry, insertEntry]

theorem range'_append_own (s m n : Nat) :
    List.range' s m ++ List.range' (s + m) n = List.range' s (m + n) := by
  induction m generalizing s with
  | zero => simp
  | succ k ih =>
    have h2 : k + 1 + n = (k + n) + 1 := by omega
    rw [List.range'_succ, h2, List.range'_succ]
    simp only [List.cons_append]
    congr 1
    have h3 : s + (k + 1) = s + 1 + k := by omega
    rw [h3, ih (s + 1)]

theorem chain'_lt_range' (n s : Nat) :
    List.Chain' (fun a b => a < b) (List.range' s n) := by
  induction n generalizing s with
  | zero => simp
  | succ k ih =>
    rw [List.range'_succ]
    rcases k with _ | k2
    · simp
    · rw [List.range'_succ]
      exact List.Chain'.cons (by omega) (by rw [← List.range'_succ]; exact ih (s + 1))

theorem explore_eq_range'_aux (c : Nat) (hc : 1 ≤ c) :
    ∀ n f t, t + 1 - f = n → f ≤ t →
      exploreBlockRange c f t = List.range' f (t + 1 - f) := by
  intro n
  induction n using Nat.strong_induction_on with
  | _ n ih =>
    intro f t hn hft
    rw [exploreBlockRange, dif_pos ⟨hft, hc⟩]
    by_cases hrest : f + min c (t + 1 - f) ≤ t
    · rw [ih (t + 1 - (f + min c (t + 1 - f))) (by omega) _ t rfl hrest]
      rw [range'_append_own]
      congr 1
      omega
    · have hbatch : min c (t + 1 - f) = t + 1 - f := by omega
      rw [exploreBlockRange, dif_neg (by omega)]
      rw [List.append_nil, hbatch]

/-- For `concurrency ≥ 1` and `fromBlock ≤ toBlock`, the range walk visits
exactly the consecutive block numbers of the closed range, in order. -/
theorem explore_eq_range' (c : Nat) (hc : 1 ≤ c) (f t : Nat) (hft : f ≤ t) :
    exploreBlockRange c f t = List.range' f (t + 1 - f) :=
  explore_eq_range'_aux c hc (t + 1 - f) f t rfl hft

/-! ## Claims -/

/-- Claim C1: for every closed range `[fromBlock, toBlock]` with
`fromBlock ≤ toBlock` and every `concurrency ≥ 1`, `exploreBlockRange`
invokes its callback exactly `toBlock - fromBlock + 1` times, once per
block, and the block numbers observed by successive callback invocations are
strictly increasing. -/
theorem claim_C1 (fromBlock toBlock concurrency : Nat)
    (hft : fromBlock ≤ toBlock) (hc : 1 ≤ concurrency) :
    (exploreBlockRange concurrency fromBlock toBlock).length =
        toBlock - fromBlock + 1 ∧
      List.Chain' (fun a b => a < b)
        (exploreBlockRange concurrency fromBlock toBlock) := by
  rw [explore_eq_range' concurrency hc fromBlock toBlock hft]
  refine ⟨?_, chain'_lt_range' _ _⟩
  rw [List.length_range']
  omega

/-- Witness for C1 at the concrete range `[3, 7]` with concurrency 2. -/
theorem claim_C1_witness :
    (exploreBlockRange 2 3 7).length = 7 - 3 + 1 ∧
      List.Chain' (fun a b => a < b) (exploreBlockRange 2 3 7) :=
  claim_C1 3 7 2 (by decide) (by decide)

/-- Claim C2: for every block on which aggregation succeeds, the snapshot's
`weightPercentage` equals the sum of the dispatched weights of all its
extrinsics multiplied by 10000, integer-divided by the maximum block weight,
then divided by 100 (the spec's own formula, `specWeightPercentage`); the
per-extrinsic records cover all extrinsics, and a block with zero extrinsics
yields `weightPercentage = 0`. -/
theorem claim_C2 (env : ChainEnv) (now : Nat) (st : CacheState)
    (bd : BlockDetails) (h : (getBlockDetails env now st).1 = .ok bd) :
    bd.weightPercentage = specWeightPercentage
        (bd.txWithEvents.map (fun t => t.dispatchInfo.weight)) env.maxBlockWeight ∧
      bd.txWithEvents.length = bd.block.extrinsics.length ∧
      (bd.block.extrinsics = [] → bd.weightPercentage = 0) := by
  simp only [getBlockDetails] at h
  split at h
  · simp at h
  · simp at h
  · simp at h
  · rename_i b records ts hgb hev hts
    split at h
    · simp at h
    · simp at h
    · rename_i fees authorName hfees hauthor
      split at h
      · simp at h
      · rename_i txs hmap
        split at h
        · simp at h
        · rename_i hmw
          simp only [Except.ok.injEq] at h
          subst h
          refine ⟨rfl, mapExtrinsicsAux_length records 0 b.extrinsics fees txs hmap, ?_⟩
          intro hext
          rw [show b.extrinsics = [] from hext] at hmap
          simp only [mapExtrinsics, mapExtrinsicsAux, Option.some.injEq] at hmap
          subst hmap
          simp only [List.map_nil, List.sum_nil, Nat.zero_mul, Nat.zero_div]
          decide

/-- Witness for C2: a successful aggregation on `envOk` (weights 300 and 200,
max block weight 10000, hence percentage `5.00`). -/
theorem claim_C2_witness :
    (getBlockDetails envOk 0 st0).1 = .ok bdOk ∧
      (bdOk.weightPercentage = specWeightPercentage
          (bdOk.txWithEvents.map (fun t => t.dispatchInfo.weight)) envOk.maxBlockWeight ∧
        bdOk.txWithEvents.length = bdOk.block.extrinsics.length ∧
        (bdOk.block.extrinsics = [] → bdOk.weightPercentage = 0)) :=
  ⟨by decide, claim_C2 envOk 0 st0 bdOk (by decide)⟩

/-- Claim C3 (amended): a successful aggregation implies every sub-fetch —
block, events, timestamp and every per-extrinsic fee quote — succeeded, so
any sub-fetch failure fails the whole aggregation and no partial snapshot is
returned.  (The original claim's further assertion that no partial state is
written to the caches is refuted by `claim_C3_counterexample`.) -/
theorem claim_C3 (env : ChainEnv) (now : Nat) (st : CacheState)
    (bd : BlockDetails) (h : (getBlockDetails env now st).1 = .ok bd) :
    (∃ b, env.getBlock = .ok b ∧
        ∀ ext ∈ b.extrinsics, ∃ f, env.queryInfo ext.hex = .ok f) ∧
      (∃ rs, env.events = .ok rs) ∧ (∃ t, env.timestampNow = .ok t) := by
  simp only [getBlockDetails] at h
  split at h
  · simp at h
  · simp at h
  · simp at h
  · rename_i b records ts hgb hev hts
    split at h
    · simp at h
    · simp at h
    · rename_i fees authorName hfees hauthor
      exact ⟨⟨b, hgb, queryFees_ok env b.extrinsics fees hfees⟩, ⟨records, hev⟩,
        ⟨ts, hts⟩⟩

/-- Counterexample to C3 as stated: on `envIdentityDown` the identity
sub-fetch fails, the aggregation fails as a whole — yet the author-mapping
cache entry written before the failing identity query persists, so partial
state *is* written to the caches. -/
theorem claim_C3_counterexample :
    (getBlockDetails envIdentityDown 5000000 st0).1 =
        .error (.rpcError "identity pallet down") ∧
      (getBlockDetails envIdentityDown 5000000 st0).2 ≠ st0 :=
  ⟨by decide, by decide⟩

/-- Witness for C3 at the successful concrete environment `envOk`. -/
theorem claim_C3_witness :
    (getBlockDetails envOk 0 st0).1 = .ok bdOk ∧
      ((∃ b, envOk.getBlock = .ok b ∧
          ∀ ext ∈ b.extrinsics, ∃ f, envOk.queryInfo ext.hex = .ok f) ∧
        (∃ rs, envOk.events = .ok rs) ∧ (∃ t, envOk.timestampNow = .ok t)) :=
  ⟨by decide, claim_C3 envOk 0 st0 bdOk (by decide)⟩

/-- Claim C4 (amended): for an author identifier with no cached entry whose
author-mapping lookup returns no mapped account, `getAuthorIdentity` returns
the *empty string* (the mapped account is `null`, and `getAccountIdentity`
returns `""` on a falsy account).  The all-zero account display is produced
only by `getBlockDetails` when no author identifier is found at all. -/
theorem claim_C4 (env : ChainEnv) (now : Nat) (author : String)
    (st : CacheState)
    (hmiss : lookupEntry st.authorMappingCache author = none)
    (hmap : env.mappingWithDeposit author = .ok none) :
    (getAuthorIdentity env now author st).val = .ok "" := by
  simp only [getAuthorIdentity, hmiss, hmap, if_true, lookupEntry_insertEntry,
    Option.map_some', Option.join, Option.some_bind, id_eq, getAccountIdentity]

/-- Counterexample to C4 as stated: on `envNoMapping` the unmapped author
resolves to `""`, not to the all-zero account display. -/
theorem claim_C4_counterexample :
    (getAuthorIdentity envNoMapping 5000000 "0xauthor" st0).val = .ok "" ∧
      (getAuthorIdentity envNoMapping 5000000 "0xauthor" st0).val ≠
        .ok zeroAddr :=
  ⟨by decide, by decide⟩

/-- Witness for C4 at the concrete environment `envNoMapping`. -/
theorem claim_C4_witness :
    (getAuthorIdentity envNoMapping 4000000 "0xauthor2" st0).val = .ok "" :=
  claim_C4 envNoMapping 4000000 "0xauthor2" st0 (by decide) (by decide)

/-- Claim C5 (amended): `generateBlockDetailsLog` is deterministic and
side-effect free as a function of the snapshot, the previous snapshot, the
options *and the current wall-clock reading*: two runs agreeing on all four
return the identical string.  (Two runs agreeing only on the snapshot inputs
but made at different wall-clock times differ: `claim_C5_counterexample`.) -/
theorem claim_C5 (t1 t2 : String) (bd1 bd2 : BlockDetails)
    (o1 o2 : Option LogOptions) (p1 p2 : Option BlockDetails)
    (ht : t1 = t2) (hbd : bd1 = bd2) (ho : o1 = o2) (hp : p1 = p2) :
    generateBlockDetailsLog t1 bd1 o1 p1 = generateBlockDetailsLog t2 bd2 o2 p2 := by
  subst ht hbd ho hp
  rfl

/-- Counterexample to C5 as stated: the same snapshot, previous snapshot and
options rendered at two different wall-clock readings give different
strings — the source interpolates `new Date().toLocaleTimeString(...)`. -/
theorem claim_C5_counterexample :
    generateBlockDetailsLog "08:00:00" sampleBd none (some samplePrevBd) ≠
      generateBlockDetailsLog "09:00:00" sampleBd none (some samplePrevBd) := by
  decide

/-- Witness for C5 at concrete equal inputs. -/
theorem claim_C5_witness :
    generateBlockDetailsLog "13:37:42" sampleBd none (some samplePrevBd) =
      generateBlockDetailsLog "13:37:42" sampleBd none (some samplePrevBd) :=
  claim_C5 "13:37:42" "13:37:42" sampleBd sampleBd none none
    (some samplePrevBd) (some samplePrevBd) rfl rfl rfl rfl

/-- Claim C6 (amended): the line rendered from the spec's fixed synthetic
snapshot contains the exact substrings `45.00%`, ` 0.005 fees`, `(+ 10)`
(the pool delta 10 left-padded to width 3 by `padStart(3, " ")`) and `3.0s`.
The unpadded `(+10)` of the original claim does not occur:
`claim_C6_counterexample`. -/
theorem claim_C6 :
    strContains sampleLog "45.00%" = true ∧
      strContains sampleLog " 0.005 fees" = true ∧
      strContains sampleLog "(+ 10)" = true ∧
      strContains sampleLog "3.0s" = true :=
  ⟨by decide, by decide, by decide, by decide⟩

/-- Counterexample to C6 as stated: the rendered line does not contain the
substring `(+10)` — the pool delta is padded to `(+ 10)`. -/
theorem claim_C6_counterexample : strContains sampleLog "(+10)" = false := by
  decide

/-- Claim C7: a resolution of an account whose identity-cache entry is
younger than the one-hour freshness window issues no storage query, and a
resolution performed after the freshness window has elapsed issues exactly
one new query. -/
theorem claim_C7 (env : ChainEnv) (t : Nat) (a : String) (st : CacheState)
    (e : IdentityCacheEntry) (ha : a ≠ "")
    (hentry : lookupEntry st.identityCache a = some e) :
    (t - e.lastUpdate < 3600 * 1000 →
        (getAccountIdentity env t (some a) st).queries = 0) ∧
      (3600 * 1000 < t - e.lastUpdate →
        (getAccountIdentity env t (some a) st).queries = 1) := by
  constructor
  · intro hfresh
    have hb : (decide (e.lastUpdate < t - 3600 * 1000)) = false := by
      simp only [decide_eq_false_iff_not]
      omega
    simp [getAccountIdentity, ha, hentry, hb]
  · intro hstale
    have hb : (decide (e.lastUpdate < t - 3600 * 1000)) = true := by
      simp only [decide_eq_true_eq]
      omega
    rcases hq : env.identityOf a with e2 | d <;>
      simp [getAccountIdentity, ha, hentry, hb, hq]

/-- Witness for C7: with a cache entry written at time 0, a resolution at
t = 1000 issues no query and a resolution at t = 7200000 issues one. -/
theorem claim_C7_witness :
    (getAccountIdentity envNoMapping 1000 (some "q") stW).queries = 0 ∧
      (getAccountIdentity envNoMapping 7200000 (some "q") stW).queries = 1 :=
  ⟨(claim_C7 envNoMapping 1000 "q" stW ⟨none, 0⟩ (by decide) (by decide)).1
      (by decide),
   (claim_C7 envNoMapping 7200000 "q" stW ⟨none, 0⟩ (by decide) (by decide)).2
      (by decide)⟩

/-- Claim C8: for every baseline and sequence of head block times processed
by `listenBlocks`, each delivered `elapsedMilliSecs` is that head's block
time minus the previously observed one (the startup baseline for the first
head), the stored previous timestamp ends at the last head's block time, and
for the synthetic times `[1000, 4000, 9000]` the delivered elapsed times are
`[1000 - baseline, 3000, 5000]`. -/
theorem claim_C8 (baseline : Int) (headTimes : List Int) :
    (listenBlocksRun baseline headTimes).1 =
        List.zipWith (fun t p => t - p) headTimes (baseline :: headTimes) ∧
      (listenBlocksRun baseline headTimes).2 = headTimes.getLastD baseline ∧
      (listenBlocksRun baseline [1000, 4000, 9000]).1 =
        [1000 - baseline, 3000, 5000] := by
  refine ⟨?_, ?_, ?_⟩
  · induction headTimes generalizing baseline with
    | nil => rfl
    | cons t ts ih => simp [listenBlocksRun, ih t]
  · induction headTimes generalizing baseline with
    | nil => rfl
    | cons t ts ih =>
      rw [List.getLastD_cons]
      simp only [listenBlocksRun]
      exact ih t
  · norm_num [listenBlocksRun]

/-- Claim C9 (amended): `listenBlocks` enforces ordering only within one
head's processing — in every reachable execution the callback for head `n`
is invoked only after head `n`'s aggregation completed.  It does not
serialize across heads: the aggregation for head N+1 can begin before the
callback for head N returns (`claim_C9_counterexample`), since neither the
async subscription handler's promise nor `callBack(...)` is awaited. -/
theorem claim_C9 (s : FollowState) (hr : FollowReachable s) (n : Nat) :
    cbAfterAgg n s.trace = true := by
  induction hr with
  | init => rfl
  | step hprev hstep ih =>
    cases hstep with
    | deliver => simp [cbAfterAgg, ih]
    | aggComplete n2 hmem =>
      by_cases hn : n2 = n <;> simp [cbAfterAgg, memEv, ih, hn]
    | cbComplete n2 hmem => simp [cbAfterAgg, ih]

/-- Counterexample to C9 as stated: the state in which heads 1 and 2 were
delivered back-to-back is reachable, and there the aggregation for head 2
has started although the callback for head 1 has not returned. -/
theorem claim_C9_counterexample :
    FollowReachable twoHeadsState ∧
      serializedAfter 1 twoHeadsState.trace = false := by
  constructor
  · exact FollowReachable.step
      (FollowReachable.step FollowReachable.init (Step.deliver _))
      (Step.deliver _)
  · decide

/-- Witness for C9 at the concrete reachable state `twoHeadsState`. -/
theorem claim_C9_witness : cbAfterAgg 1 twoHeadsState.trace = true :=
  claim_C9 twoHeadsState
    (FollowReachable.step
      (FollowReachable.step FollowReachable.init (Step.deliver _))
      (Step.deliver _)) 1

/-- Claim C10: for every falsy (empty or absent) account identifier
`getAccountIdentity` returns the empty string at once, issuing no storage
query and leaving the identity cache untouched; and `getAccountIdentities`
returns the empty list for a null or empty accounts input without any
query. -/
theorem claim_C10 (env : ChainEnv) (now : Nat) (st : CacheState) :
    (∀ a, jsFalsyS a = true →
        getAccountIdentity env now a st = ⟨.ok "", st, 0⟩) ∧
      (∀ accounts, accounts = none ∨ accounts = some ([] : List String) →
        getAccountIdentities env now accounts st = ⟨.ok [], st, 0⟩) := by
  constructor
  · intro a ha
    match a with
    | none => rfl
    | some s =>
      simp only [jsFalsyS, decide_eq_true_eq] at ha
      subst ha
      rfl
  · intro accounts hacc
    rcases hacc with h | h <;> subst h <;> rfl

/-- Witness for C10 at the empty-string account and the empty account
list. -/
theorem claim_C10_witness :
    getAccountIdentity envNoMapping 0 (some "") st0 = ⟨.ok "", st0, 0⟩ ∧
      getAccountIdentities envNoMapping 0 (some []) st0 = ⟨.ok [], st0, 0⟩ :=
  ⟨(claim_C10 envNoMapping 0 st0).1 (some "") (by decide),
   (claim_C10 envNoMapping 0 st0).2 (some []) (Or.inr rfl)⟩
